import Mathlib

/-!
Shallow embedding of the DNA-to-protein translation core of the repository:
`src/day03/logic.py` (`validate_sequence`, `translate_dna_to_protein` and its
embedded genetic-code table, taken on the path where the optional Biopython
backend is absent) and `src/day02/dna_to_protein_gui.py`
(`DNATranslator.validate_sequence`, `DNATranslator.translate_dna_to_protein`
and its own copy of the table).  Strings are embedded as `List Char`.
-/

set_option maxRecDepth 10000

/-- ASCII model of Python `str.upper` applied characterwise: lowercase
letters map to uppercase, everything else is unchanged. -/
def pyToUpper : Char → Char
  | 'a' => 'A' | 'b' => 'B' | 'c' => 'C' | 'd' => 'D' | 'e' => 'E' | 'f' => 'F'
  | 'g' => 'G' | 'h' => 'H' | 'i' => 'I' | 'j' => 'J' | 'k' => 'K' | 'l' => 'L'
  | 'm' => 'M' | 'n' => 'N' | 'o' => 'O' | 'p' => 'P' | 'q' => 'Q' | 'r' => 'R'
  | 's' => 'S' | 't' => 'T' | 'u' => 'U' | 'v' => 'V' | 'w' => 'W' | 'x' => 'X'
  | 'y' => 'Y' | 'z' => 'Z'
  | c => c

/-- ASCII model of Python `str.lower` applied characterwise. -/
def pyToLower : Char → Char
  | 'A' => 'a' | 'B' => 'b' | 'C' => 'c' | 'D' => 'd' | 'E' => 'e' | 'F' => 'f'
  | 'G' => 'g' | 'H' => 'h' | 'I' => 'i' | 'J' => 'j' | 'K' => 'k' | 'L' => 'l'
  | 'M' => 'm' | 'N' => 'n' | 'O' => 'o' | 'P' => 'p' | 'Q' => 'q' | 'R' => 'r'
  | 'S' => 's' | 'T' => 't' | 'U' => 'u' | 'V' => 'v' | 'W' => 'w' | 'X' => 'x'
  | 'Y' => 'y' | 'Z' => 'z'
  | c => c

/-- The whitespace characters removed by Python `str.strip()` (ASCII range). -/
def pythonIsSpace (c : Char) : Bool :=
  c == ' ' || c == '\t' || c == '\n' || c == '\r' || c == '\x0b' || c == '\x0c'

/-- Python `str.strip()`: drop whitespace from both ends. -/
def stripChars (l : List Char) : List Char :=
  ((l.dropWhile pythonIsSpace).reverse.dropWhile pythonIsSpace).reverse

/-- Python `str.find(pat)`: index of the leftmost occurrence of `pat` as a
contiguous substring, `none` when there is no occurrence (`-1` in Python). -/
def findSub (pat : List Char) : List Char → Option Nat
  | [] => if ([] : List Char).take pat.length = pat then some 0 else none
  | c :: rest =>
    if (c :: rest).take pat.length = pat then some 0
    else (findSub pat rest).map (· + 1)

/-- Specification-side notion of substring occurrence: `pat` occurs in `l`
starting at index `i`. -/
def matchesAt (pat l : List Char) (i : Nat) : Prop :=
  (l.drop i).take pat.length = pat

instance (pat l : List Char) (i : Nat) : Decidable (matchesAt pat l i) := by
  unfold matchesAt; infer_instance

/-- Python `dict.get` over an association list (the dict literals of the
sources have no duplicate keys, so first-match lookup is the dict lookup). -/
def lookupTab : List (List Char × Char) → List Char → Option Char
  | [], _ => none
  | (k, v) :: rest, key => if key = k then some v else lookupTab rest key

/-- Split a character list into its consecutive complete 3-character codons,
discarding a trailing remainder of fewer than 3 characters. -/
def toCodons : List Char → List (List Char)
  | c1 :: c2 :: c3 :: rest => [c1, c2, c3] :: toCodons rest
  | _ => []

/-- The eight characters accepted by the `[ATCGatcg]` character class. -/
def dnaLetters : List Char := ['A', 'T', 'C', 'G', 'a', 't', 'c', 'g']

/-- The four uppercase nucleotide letters. -/
def validBases : List Char := ['A', 'T', 'C', 'G']

/-- The three stop codons of the standard genetic code. -/
def stopCodons : List (List Char) :=
  [['T', 'A', 'A'], ['T', 'A', 'G'], ['T', 'G', 'A']]

/-- The twenty canonical one-letter amino-acid codes. -/
def twentyAA : List Char :=
  ['A', 'C', 'D', 'E', 'F', 'G', 'H', 'I', 'K', 'L',
   'M', 'N', 'P', 'Q', 'R', 'S', 'T', 'V', 'W', 'Y']

/-- The Boolean test of the regex character class `[ATCGatcg]` used by
`GENETIC_CODE_REGEX` in `src/day03/logic.py`. -/
def charClassATCG (c : Char) : Bool :=
  c == 'A' || c == 'T' || c == 'C' || c == 'G' ||
  c == 'a' || c == 't' || c == 'c' || c == 'g'

namespace Day03

/-- The module-level genetic-code dictionary of `src/day03/logic.py`
(lines 91-108), in source order. -/
def genetic_code : List (List Char × Char) := [
  (['T', 'T', 'T'], 'F'), (['T', 'T', 'C'], 'F'), (['T', 'T', 'A'], 'L'), (['T', 'T', 'G'], 'L'),
  (['C', 'T', 'T'], 'L'), (['C', 'T', 'C'], 'L'), (['C', 'T', 'A'], 'L'), (['C', 'T', 'G'], 'L'),
  (['A', 'T', 'T'], 'I'), (['A', 'T', 'C'], 'I'), (['A', 'T', 'A'], 'I'), (['A', 'T', 'G'], 'M'),
  (['G', 'T', 'T'], 'V'), (['G', 'T', 'C'], 'V'), (['G', 'T', 'A'], 'V'), (['G', 'T', 'G'], 'V'),
  (['T', 'C', 'T'], 'S'), (['T', 'C', 'C'], 'S'), (['T', 'C', 'A'], 'S'), (['T', 'C', 'G'], 'S'),
  (['C', 'C', 'T'], 'P'), (['C', 'C', 'C'], 'P'), (['C', 'C', 'A'], 'P'), (['C', 'C', 'G'], 'P'),
  (['A', 'C', 'T'], 'T'), (['A', 'C', 'C'], 'T'), (['A', 'C', 'A'], 'T'), (['A', 'C', 'G'], 'T'),
  (['G', 'C', 'T'], 'A'), (['G', 'C', 'C'], 'A'), (['G', 'C', 'A'], 'A'), (['G', 'C', 'G'], 'A'),
  (['T', 'A', 'T'], 'Y'), (['T', 'A', 'C'], 'Y'), (['T', 'A', 'A'], '*'), (['T', 'A', 'G'], '*'),
  (['C', 'A', 'T'], 'H'), (['C', 'A', 'C'], 'H'), (['C', 'A', 'A'], 'Q'), (['C', 'A', 'G'], 'Q'),
  (['A', 'A', 'T'], 'N'), (['A', 'A', 'C'], 'N'), (['A', 'A', 'A'], 'K'), (['A', 'A', 'G'], 'K'),
  (['G', 'A', 'T'], 'D'), (['G', 'A', 'C'], 'D'), (['G', 'A', 'A'], 'E'), (['G', 'A', 'G'], 'E'),
  (['T', 'G', 'T'], 'C'), (['T', 'G', 'C'], 'C'), (['T', 'G', 'A'], '*'), (['T', 'G', 'G'], 'W'),
  (['C', 'G', 'T'], 'R'), (['C', 'G', 'C'], 'R'), (['C', 'G', 'A'], 'R'), (['C', 'G', 'G'], 'R'),
  (['A', 'G', 'T'], 'S'), (['A', 'G', 'C'], 'S'), (['A', 'G', 'A'], 'R'), (['A', 'G', 'G'], 'R'),
  (['G', 'G', 'T'], 'G'), (['G', 'G', 'C'], 'G'), (['G', 'G', 'A'], 'G'), (['G', 'G', 'G'], 'G')]

/-- `genetic_code.get(codon, '')` of the source: `none` models the empty
default (unmapped). -/
def geneticCodeGet (codon : List Char) : Option Char :=
  lookupTab genetic_code codon

/-- The decode loop of `translate_dna_to_protein` (lines 110-121): consume
complete 3-character codons; break on a stop symbol, skip an unmapped codon,
append any other symbol; stop when fewer than 3 characters remain. -/
def decodeLoop : List Char → List Char
  | c1 :: c2 :: c3 :: rest =>
    match geneticCodeGet [c1, c2, c3] with
    | some aa => if aa = '*' then [] else aa :: decodeLoop rest
    | none => decodeLoop rest
  | _ => []

/-- `validate_sequence` of `src/day03/logic.py` (lines 22-33): false on the
empty string, otherwise full-match of the stripped string against
`^[ATCGatcg]+$`. -/
def validate_sequence (s : List Char) : Bool :=
  if s = [] then false
  else
    let t := stripChars s
    !t.isEmpty && t.all charClassATCG

/-- `sequence.upper().strip()` (line 56). -/
def normalize (s : List Char) : List Char :=
  stripChars (s.map pyToUpper)

/-- `start = dna.find('ATG'); if start == -1: start = 0` (lines 59-61). -/
def startIdx (dna : List Char) : Nat :=
  (findSub ['A', 'T', 'G'] dna).getD 0

/-- `coding = dna[start:]` (line 63). -/
def coding (s : List Char) : List Char :=
  (normalize s).drop (startIdx (normalize s))

/-- `translate_dna_to_protein` of `src/day03/logic.py` on the path where the
Biopython backend is absent: early return on the empty string, then
normalize, seek `ATG`, and run the decode loop on the coding suffix. -/
def translate_dna_to_protein (s : List Char) : List Char :=
  if s = [] then [] else decodeLoop (coding s)

/-- Modelled from the spec: the optional authoritative external codon-table
engine (the Biopython `Seq.translate(to_stop=True)` call of lines 66-73,
whose library is not part of this repository).  Per the spec it performs
seek-to-stop translation and "must agree on the documented codon table and
stop-codon semantics" with the embedded table. -/
def externalEngineTranslate : List Char → List Char
  | c1 :: c2 :: c3 :: rest =>
    match geneticCodeGet [c1, c2, c3] with
    | some aa => if aa = '*' then [] else aa :: externalEngineTranslate rest
    | none => externalEngineTranslate rest
  | _ => []

/-- `translate_dna_to_protein` with the backend-availability flag made
explicit: when `backend` is true the external engine decodes the coding
suffix, otherwise the embedded decode loop does. -/
def translateWithBackend (backend : Bool) (s : List Char) : List Char :=
  if s = [] then []
  else if backend then externalEngineTranslate (coding s)
  else decodeLoop (coding s)

/-- The decode loop transcribed into an exception monad: every step of the
source loop is total (`dict.get` with a default, slicing, concatenation), so
no branch produces an error value. -/
def decodeLoopE : List Char → Except String (List Char)
  | c1 :: c2 :: c3 :: rest =>
    match geneticCodeGet [c1, c2, c3] with
    | some aa =>
      if aa = '*' then Except.ok []
      else
        match decodeLoopE rest with
        | Except.ok tail => Except.ok (aa :: tail)
        | Except.error e => Except.error e
    | none => decodeLoopE rest
  | _ => Except.ok []

/-- `translate_dna_to_protein` in the exception monad. -/
def translateE (s : List Char) : Except String (List Char) :=
  if s = [] then Except.ok [] else decodeLoopE (coding s)

end Day03

namespace Day02

/-- `self.genetic_code` of `src/day02/dna_to_protein_gui.py` (lines 7-24),
in source order. -/
def genetic_code : List (List Char × Char) := [
  (['T', 'T', 'T'], 'F'), (['T', 'T', 'C'], 'F'), (['T', 'T', 'A'], 'L'), (['T', 'T', 'G'], 'L'),
  (['C', 'T', 'T'], 'L'), (['C', 'T', 'C'], 'L'), (['C', 'T', 'A'], 'L'), (['C', 'T', 'G'], 'L'),
  (['A', 'T', 'T'], 'I'), (['A', 'T', 'C'], 'I'), (['A', 'T', 'A'], 'I'), (['A', 'T', 'G'], 'M'),
  (['G', 'T', 'T'], 'V'), (['G', 'T', 'C'], 'V'), (['G', 'T', 'A'], 'V'), (['G', 'T', 'G'], 'V'),
  (['T', 'C', 'T'], 'S'), (['T', 'C', 'C'], 'S'), (['T', 'C', 'A'], 'S'), (['T', 'C', 'G'], 'S'),
  (['C', 'C', 'T'], 'P'), (['C', 'C', 'C'], 'P'), (['C', 'C', 'A'], 'P'), (['C', 'C', 'G'], 'P'),
  (['A', 'C', 'T'], 'T'), (['A', 'C', 'C'], 'T'), (['A', 'C', 'A'], 'T'), (['A', 'C', 'G'], 'T'),
  (['G', 'C', 'T'], 'A'), (['G', 'C', 'C'], 'A'), (['G', 'C', 'A'], 'A'), (['G', 'C', 'G'], 'A'),
  (['T', 'A', 'T'], 'Y'), (['T', 'A', 'C'], 'Y'), (['T', 'A', 'A'], '*'), (['T', 'A', 'G'], '*'),
  (['C', 'A', 'T'], 'H'), (['C', 'A', 'C'], 'H'), (['C', 'A', 'A'], 'Q'), (['C', 'A', 'G'], 'Q'),
  (['A', 'A', 'T'], 'N'), (['A', 'A', 'C'], 'N'), (['A', 'A', 'A'], 'K'), (['A', 'A', 'G'], 'K'),
  (['G', 'A', 'T'], 'D'), (['G', 'A', 'C'], 'D'), (['G', 'A', 'A'], 'E'), (['G', 'A', 'G'], 'E'),
  (['T', 'G', 'T'], 'C'), (['T', 'G', 'C'], 'C'), (['T', 'G', 'A'], '*'), (['T', 'G', 'G'], 'W'),
  (['C', 'G', 'T'], 'R'), (['C', 'G', 'C'], 'R'), (['C', 'G', 'A'], 'R'), (['C', 'G', 'G'], 'R'),
  (['A', 'G', 'T'], 'S'), (['A', 'G', 'C'], 'S'), (['A', 'G', 'A'], 'R'), (['A', 'G', 'G'], 'R'),
  (['G', 'G', 'T'], 'G'), (['G', 'G', 'C'], 'G'), (['G', 'G', 'A'], 'G'), (['G', 'G', 'G'], 'G')]

/-- `self.genetic_code.get(codon, '')` of the day02 source. -/
def geneticCodeGet (codon : List Char) : Option Char :=
  lookupTab genetic_code codon

/-- The decode loop of `DNATranslator.translate_dna_to_protein`
(lines 104-119), expressed on the suffix of the input that starts at the
loop index: identical break/skip/append policy to day03. -/
def decodeLoop : List Char → List Char
  | c1 :: c2 :: c3 :: rest =>
    match geneticCodeGet [c1, c2, c3] with
    | some aa => if aa = '*' then [] else aa :: decodeLoop rest
    | none => decodeLoop rest
  | _ => []

/-- `DNATranslator.validate_sequence` (lines 87-91):
`set(sequence.upper()).issubset(set('ATCG'))`. -/
def validate_sequence (s : List Char) : Bool :=
  (s.map pyToUpper).all fun c => validBases.contains c

/-- `DNATranslator.translate_dna_to_protein` (lines 93-119): uppercase (no
strip), seek `ATG` with fallback to index 0, then run the decode loop from
that position. -/
def translate_dna_to_protein (s : List Char) : List Char :=
  let dna := s.map pyToUpper
  decodeLoop (dna.drop (Day03.startIdx dna))

end Day02

example : Day03.translate_dna_to_protein ("AAAATGAAACCC".data) = "MKP".data := by decide
example : Day03.translate_dna_to_protein ("ATGAAATAGGGT".data) = "MK".data := by decide
example : Day03.translate_dna_to_protein ("TTTGGGCC".data) = "FG".data := by decide
example : Day03.validate_sequence ("ATGX".data) = false := by decide
example : Day03.validate_sequence ("  atg ".data) = true := by decide
example : Day02.validate_sequence [] = true := by decide
example : Day02.translate_dna_to_protein ("AAAATGAAACCC".data) = "MKP".data := by decide

/-! ### Helper lemmas -/

theorem pyToUpper_pyToLower (c : Char) : pyToUpper (pyToLower c) = pyToUpper c := by
  unfold pyToLower
  split <;> rfl

theorem dropWhile_noop {p : Char → Bool} (l : List Char)
    (h : ∀ a ∈ l, p a = false) : l.dropWhile p = l := by
  cases l with
  | nil => rfl
  | cons x xs =>
    rw [List.dropWhile_cons_of_neg]
    simp [h x (List.mem_cons_self x xs)]

theorem stripChars_noop (l : List Char)
    (h : ∀ a ∈ l, pythonIsSpace a = false) : stripChars l = l := by
  unfold stripChars
  rw [dropWhile_noop l h, dropWhile_noop l.reverse (fun a ha => h a (by simpa using ha)),
    List.reverse_reverse]

theorem matchesAt_zero (pat l : List Char) :
    matchesAt pat l 0 ↔ l.take pat.length = pat := by
  unfold matchesAt
  rw [List.drop_zero]

theorem matchesAt_succ_cons (pat : List Char) (c : Char) (rest : List Char) (j : Nat) :
    matchesAt pat (c :: rest) (j + 1) ↔ matchesAt pat rest j := by
  unfold matchesAt
  rw [List.drop_succ_cons]

theorem findSub_some (pat : List Char) :
    ∀ l i, findSub pat l = some i →
      matchesAt pat l i ∧ ∀ j, j < i → ¬ matchesAt pat l j
  | [], i, h => by
    unfold findSub at h
    split at h
    · next hp =>
      cases h
      exact ⟨(matchesAt_zero pat []).mpr hp, fun j hj => absurd hj (Nat.not_lt_zero j)⟩
    · exact absurd h (by simp)
  | c :: rest, i, h => by
    unfold findSub at h
    split at h
    · next hp =>
      cases h
      exact ⟨(matchesAt_zero pat (c :: rest)).mpr hp,
        fun j hj => absurd hj (Nat.not_lt_zero j)⟩
    · next hp =>
      cases hfr : findSub pat rest with
      | none => rw [hfr] at h; simp at h
      | some i2 =>
        rw [hfr] at h
        simp only [Option.map_some'] at h
        cases h
        have ih := findSub_some pat rest i2 hfr
        refine ⟨(matchesAt_succ_cons pat c rest i2).mpr ih.1, fun j hj => ?_⟩
        match j with
        | 0 =>
          rw [matchesAt_zero]
          exact hp
        | j2 + 1 =>
          rw [matchesAt_succ_cons]
          exact ih.2 j2 (Nat.lt_of_succ_lt_succ hj)

theorem findSub_none (pat : List Char) :
    ∀ l, findSub pat l = none → ∀ j, ¬ matchesAt pat l j
  | [], h, j => by
    unfold findSub at h
    split at h
    · simp at h
    · next hp =>
      intro hm
      unfold matchesAt at hm
      rw [List.drop_nil] at hm
      exact hp hm
  | c :: rest, h, j => by
    unfold findSub at h
    split at h
    · simp at h
    · next hp =>
      cases hfr : findSub pat rest with
      | some i2 => rw [hfr] at h; simp at h
      | none =>
        match j with
        | 0 =>
          rw [matchesAt_zero]
          exact hp
        | j2 + 1 =>
          rw [matchesAt_succ_cons]
          exact findSub_none pat rest hfr j2

theorem day02_decodeLoop_eq : ∀ l, Day02.decodeLoop l = Day03.decodeLoop l
  | [] => rfl
  | [c1] => rfl
  | [c1, c2] => rfl
  | c1 :: c2 :: c3 :: rest => by
    have ih := day02_decodeLoop_eq rest
    have hg : Day02.geneticCodeGet [c1, c2, c3] = Day03.geneticCodeGet [c1, c2, c3] := rfl
    cases hg2 : Day03.geneticCodeGet [c1, c2, c3] with
    | none => simp [Day02.decodeLoop, Day03.decodeLoop, hg, hg2, ih]
    | some aa =>
      by_cases ha : aa = '*' <;>
        simp [Day02.decodeLoop, Day03.decodeLoop, hg, hg2, ha, ih]

theorem external_engine_eq : ∀ l, Day03.externalEngineTranslate l = Day03.decodeLoop l
  | [] => rfl
  | [c1] => rfl
  | [c1, c2] => rfl
  | c1 :: c2 :: c3 :: rest => by
    have ih := external_engine_eq rest
    cases hg : Day03.geneticCodeGet [c1, c2, c3] with
    | none => simp [Day03.externalEngineTranslate, Day03.decodeLoop, hg, ih]
    | some aa =>
      by_cases ha : aa = '*' <;>
        simp [Day03.externalEngineTranslate, Day03.decodeLoop, hg, ha, ih]

theorem decodeLoop_append :
    ∀ u v : List Char, u.length % 3 = 0 →
      (∀ c ∈ toCodons u, Day03.geneticCodeGet c ≠ some '*') →
      Day03.decodeLoop (u ++ v) = Day03.decodeLoop u ++ Day03.decodeLoop v
  | [], v, _, _ => by simp [Day03.decodeLoop]
  | [c1], v, h, _ => by simp at h
  | [c1, c2], v, h, _ => by simp at h
  | c1 :: c2 :: c3 :: rest, v, h, hns => by
    have h3 : rest.length % 3 = 0 := by
      simp only [List.length_cons] at h
      omega
    have hcur : Day03.geneticCodeGet [c1, c2, c3] ≠ some '*' :=
      hns [c1, c2, c3] (by simp [toCodons])
    have hrest : ∀ c ∈ toCodons rest, Day03.geneticCodeGet c ≠ some '*' :=
      fun c hc => hns c (by simp [toCodons, hc])
    have ih := decodeLoop_append rest v h3 hrest
    show Day03.decodeLoop (c1 :: c2 :: c3 :: (rest ++ v)) = _
    cases hg : Day03.geneticCodeGet [c1, c2, c3] with
    | none => simp [Day03.decodeLoop, hg, ih]
    | some aa =>
      have ha : ¬ aa = '*' := fun hh => hcur (by rw [hg, hh])
      simp [Day03.decodeLoop, hg, ha, ih]

theorem decodeLoop_stop (v w : List Char) (hv : v ∈ stopCodons) :
    Day03.decodeLoop (v ++ w) = [] := by
  have hv2 : v = ['T', 'A', 'A'] ∨ v = ['T', 'A', 'G'] ∨ v = ['T', 'G', 'A'] := by
    simpa [stopCodons] using hv
  rcases hv2 with rfl | rfl | rfl
  · have hg : Day03.geneticCodeGet ['T', 'A', 'A'] = some '*' := by decide
    simp [Day03.decodeLoop, hg]
  · have hg : Day03.geneticCodeGet ['T', 'A', 'G'] = some '*' := by decide
    simp [Day03.decodeLoop, hg]
  · have hg : Day03.geneticCodeGet ['T', 'G', 'A'] = some '*' := by decide
    simp [Day03.decodeLoop, hg]

theorem decodeLoop_dropTail :
    ∀ u v : List Char, u.length % 3 = 0 → v.length < 3 →
      Day03.decodeLoop (u ++ v) = Day03.decodeLoop u
  | [], v, _, hv => by
    match v, hv with
    | [], _ => rfl
    | [c1], _ => rfl
    | [c1, c2], _ => rfl
  | [c1], v, h, _ => by simp at h
  | [c1, c2], v, h, _ => by simp at h
  | c1 :: c2 :: c3 :: rest, v, h, hv => by
    have h3 : rest.length % 3 = 0 := by
      simp only [List.length_cons] at h
      omega
    have ih := decodeLoop_dropTail rest v h3 hv
    show Day03.decodeLoop (c1 :: c2 :: c3 :: (rest ++ v)) = _
    cases hg : Day03.geneticCodeGet [c1, c2, c3] with
    | none => simp [Day03.decodeLoop, hg, ih]
    | some aa =>
      by_cases ha : aa = '*' <;> simp [Day03.decodeLoop, hg, ha, ih]

theorem mem_decodeLoop :
    ∀ l : List Char, ∀ c, c ∈ Day03.decodeLoop l →
      ∃ k, Day03.geneticCodeGet k = some c ∧ c ≠ '*'
  | [], c, h => by simp [Day03.decodeLoop] at h
  | [c1], c, h => by simp [Day03.decodeLoop] at h
  | [c1, c2], c, h => by simp [Day03.decodeLoop] at h
  | c1 :: c2 :: c3 :: rest, c, h => by
    revert h
    cases hg : Day03.geneticCodeGet [c1, c2, c3] with
    | none =>
      intro h
      rw [show Day03.decodeLoop (c1 :: c2 :: c3 :: rest) = Day03.decodeLoop rest by
        simp [Day03.decodeLoop, hg]] at h
      exact mem_decodeLoop rest c h
    | some aa =>
      by_cases ha : aa = '*'
      · intro h
        rw [show Day03.decodeLoop (c1 :: c2 :: c3 :: rest) = [] by
          simp [Day03.decodeLoop, hg, ha]] at h
        simp at h
      · intro h
        rw [show Day03.decodeLoop (c1 :: c2 :: c3 :: rest) = aa :: Day03.decodeLoop rest by
          simp [Day03.decodeLoop, hg, ha]] at h
        rcases List.mem_cons.mp h with rfl | h2
        · exact ⟨[c1, c2, c3], hg, ha⟩
        · exact mem_decodeLoop rest c h2

theorem lookupTab_mem :
    ∀ (t : List (List Char × Char)) (k : List Char) (v : Char),
      lookupTab t k = some v → (k, v) ∈ t
  | [], k, v, h => by simp [lookupTab] at h
  | (k2, v2) :: rest, k, v, h => by
    unfold lookupTab at h
    split at h
    · next hk =>
      cases h
      subst hk
      exact List.mem_cons_self _ _
    · exact List.mem_cons_of_mem _ (lookupTab_mem rest k v h)

theorem mem_toCodons :
    ∀ l cdn, cdn ∈ toCodons l →
      ∃ x y z, cdn = [x, y, z] ∧ x ∈ l ∧ y ∈ l ∧ z ∈ l
  | [], cdn, h => by simp [toCodons] at h
  | [c1], cdn, h => by simp [toCodons] at h
  | [c1, c2], cdn, h => by simp [toCodons] at h
  | c1 :: c2 :: c3 :: rest, cdn, h => by
    rw [show toCodons (c1 :: c2 :: c3 :: rest) = [c1, c2, c3] :: toCodons rest from rfl] at h
    rcases List.mem_cons.mp h with rfl | h2
    · exact ⟨c1, c2, c3, rfl, by simp, by simp, by simp⟩
    · obtain ⟨x, y, z, rfl, hx, hy, hz⟩ := mem_toCodons rest cdn h2
      exact ⟨x, y, z, rfl, by simp [hx], by simp [hy], by simp [hz]⟩

theorem decodeLoopE_ok :
    ∀ l : List Char, Day03.decodeLoopE l = Except.ok (Day03.decodeLoop l)
  | [] => rfl
  | [c1] => rfl
  | [c1, c2] => rfl
  | c1 :: c2 :: c3 :: rest => by
    have ih := decodeLoopE_ok rest
    cases hg : Day03.geneticCodeGet [c1, c2, c3] with
    | none => simp [Day03.decodeLoopE, Day03.decodeLoop, hg, ih]
    | some aa =>
      by_cases ha : aa = '*' <;> simp [Day03.decodeLoopE, Day03.decodeLoop, hg, ha, ih]

theorem pyToUpper_mem_validBases {c : Char} (h : c ∈ dnaLetters) :
    pyToUpper c ∈ validBases := by
  have h2 : c = 'A' ∨ c = 'T' ∨ c = 'C' ∨ c = 'G' ∨
      c = 'a' ∨ c = 't' ∨ c = 'c' ∨ c = 'g' := by
    simpa [dnaLetters] using h
  rcases h2 with rfl | rfl | rfl | rfl | rfl | rfl | rfl | rfl <;> decide

theorem validBases_not_space {c : Char} (h : c ∈ validBases) :
    pythonIsSpace c = false := by
  have h2 : c = 'A' ∨ c = 'T' ∨ c = 'C' ∨ c = 'G' := by
    simpa [validBases] using h
  rcases h2 with rfl | rfl | rfl | rfl <;> decide

theorem normalize_of_letters (s : List Char) (h : ∀ c ∈ s, c ∈ dnaLetters) :
    Day03.normalize s = s.map pyToUpper := by
  unfold Day03.normalize
  refine stripChars_noop _ fun a ha => ?_
  obtain ⟨b, hb, rfl⟩ := List.mem_map.mp ha
  exact validBases_not_space (pyToUpper_mem_validBases (h b hb))

theorem mapped_total :
    ∀ x ∈ validBases, ∀ y ∈ validBases, ∀ z ∈ validBases,
      Day03.geneticCodeGet [x, y, z] ≠ none := by decide

theorem genetic_code_values :
    ∀ p ∈ Day03.genetic_code, p.2 = '*' ∨ p.2 ∈ twentyAA := by decide

theorem validate_ne_nil {s : List Char} (h : Day03.validate_sequence s = true) :
    s ≠ [] := by
  intro hs
  subst hs
  simp [Day03.validate_sequence] at h

theorem charClassATCG_iff (c : Char) : charClassATCG c = true ↔ c ∈ dnaLetters := by
  unfold charClassATCG dnaLetters
  simp only [Bool.or_eq_true, beq_iff_eq, List.mem_cons, List.not_mem_nil, or_false]
  tauto

/-! ### Claims -/

/-- Claim C1: for every validated sequence, `translate_dna_to_protein` begins
decoding at the index of the first occurrence of the literal substring `ATG`
in the normalized (trimmed, uppercased) sequence, with codon boundaries fixed
relative to that offset; if `ATG` does not occur, decoding begins at index 0.
In particular `translate_dna_to_protein "AAAATGAAACCC" = "MKP"`. -/
theorem claim_C1_start_codon_seek :
    (∀ s i, Day03.validate_sequence s = true →
      matchesAt ['A', 'T', 'G'] (Day03.normalize s) i →
      (∀ j, j < i → ¬ matchesAt ['A', 'T', 'G'] (Day03.normalize s) j) →
      Day03.translate_dna_to_protein s = Day03.decodeLoop ((Day03.normalize s).drop i))
    ∧ (∀ s, Day03.validate_sequence s = true →
      (∀ j, ¬ matchesAt ['A', 'T', 'G'] (Day03.normalize s) j) →
      Day03.translate_dna_to_protein s = Day03.decodeLoop (Day03.normalize s))
    ∧ Day03.translate_dna_to_protein ("AAAATGAAACCC".data) = "MKP".data := by
  refine ⟨?_, ?_, by decide⟩
  · intro s i hv hm hmin
    have hs : s ≠ [] := validate_ne_nil hv
    unfold Day03.translate_dna_to_protein Day03.coding Day03.startIdx
    rw [if_neg hs]
    cases hf : findSub ['A', 'T', 'G'] (Day03.normalize s) with
    | none => exact absurd hm (findSub_none _ _ hf i)
    | some i2 =>
      obtain ⟨hm2, hmin2⟩ := findSub_some _ _ _ hf
      have hi : i2 = i := by
        rcases Nat.lt_trichotomy i2 i with h2 | h2 | h2
        · exact absurd hm2 (hmin i2 h2)
        · exact h2
        · exact absurd hm (hmin2 i h2)
      rw [hi, Option.getD_some]
  · intro s hv hnone
    have hs : s ≠ [] := validate_ne_nil hv
    unfold Day03.translate_dna_to_protein Day03.coding Day03.startIdx
    rw [if_neg hs]
    cases hf : findSub ['A', 'T', 'G'] (Day03.normalize s) with
    | none => rw [Option.getD_none, List.drop_zero]
    | some i2 => exact absurd (findSub_some _ _ _ hf).1 (hnone i2)

/-- Claim C1 witness: on `AAAATGAAACCC`, `ATG` first occurs at index 3 of the
normalized sequence and translation is the decode loop from that offset. -/
theorem claim_C1_start_codon_seek_witness :
    Day03.translate_dna_to_protein ("AAAATGAAACCC".data) =
      Day03.decodeLoop ((Day03.normalize ("AAAATGAAACCC".data)).drop 3) :=
  claim_C1_start_codon_seek.1 ("AAAATGAAACCC".data) 3 (by decide) (by decide) (by decide)

/-- Claim C2: the decode loop terminates at the first in-frame stop codon
(`TAA`, `TAG` or `TGA`): no symbol is emitted for the stop codon, everything
after it is discarded, and a stop codon as the first codon yields the empty
string.  In particular `translate_dna_to_protein "ATGAAATAGGGT" = "MK"`. -/
theorem claim_C2_stop_termination :
    (∀ s u v w, Day03.validate_sequence s = true →
      Day03.coding s = u ++ v ++ w →
      u.length % 3 = 0 → v ∈ stopCodons →
      (∀ c ∈ toCodons u, Day03.geneticCodeGet c ≠ some '*') →
      Day03.translate_dna_to_protein s = Day03.decodeLoop u)
    ∧ (∀ s v w, Day03.validate_sequence s = true →
      Day03.coding s = v ++ w → v ∈ stopCodons →
      Day03.translate_dna_to_protein s = [])
    ∧ Day03.translate_dna_to_protein ("ATGAAATAGGGT".data) = "MK".data := by
  refine ⟨?_, ?_, by decide⟩
  · intro s u v w hv hcod hu hstop hns
    have hs : s ≠ [] := validate_ne_nil hv
    unfold Day03.translate_dna_to_protein
    rw [if_neg hs, hcod, List.append_assoc, decodeLoop_append u (v ++ w) hu hns,
      decodeLoop_stop v w hstop, List.append_nil]
  · intro s v w hv hcod hstop
    have hs : s ≠ [] := validate_ne_nil hv
    unfold Day03.translate_dna_to_protein
    rw [if_neg hs, hcod, decodeLoop_stop v w hstop]

/-- Claim C2 witness: on `ATGAAATAGGGT`, the coding region splits as
`ATGAAA ++ TAG ++ GGT` and translation equals the decode loop on `ATGAAA`. -/
theorem claim_C2_stop_termination_witness :
    Day03.translate_dna_to_protein ("ATGAAATAGGGT".data) =
      Day03.decodeLoop ("ATGAAA".data) :=
  claim_C2_stop_termination.1 ("ATGAAATAGGGT".data) ("ATGAAA".data) ("TAG".data)
    ("GGT".data) (by decide) (by decide) (by decide) (by decide) (by decide)

/-- Claim C3: a trailing partial codon of fewer than 3 characters after the
chosen offset is silently discarded: the loop stops without emitting anything
for it.  In particular `translate_dna_to_protein "TTTGGGCC" = "FG"`. -/
theorem claim_C3_partial_codon_discarded :
    (∀ s u v, Day03.validate_sequence s = true →
      Day03.coding s = u ++ v → u.length % 3 = 0 → v.length < 3 →
      Day03.translate_dna_to_protein s = Day03.decodeLoop u)
    ∧ Day03.translate_dna_to_protein ("TTTGGGCC".data) = "FG".data := by
  refine ⟨?_, by decide⟩
  intro s u v hv hcod hu hvlen
  have hs : s ≠ [] := validate_ne_nil hv
  unfold Day03.translate_dna_to_protein
  rw [if_neg hs, hcod, decodeLoop_dropTail u v hu hvlen]

/-- Claim C3 witness: on `TTTGGGCC` the coding region splits as
`TTTGGG ++ CC` and translation equals the decode loop on `TTTGGG`. -/
theorem claim_C3_partial_codon_discarded_witness :
    Day03.translate_dna_to_protein ("TTTGGGCC".data) =
      Day03.decodeLoop ("TTTGGG".data) :=
  claim_C3_partial_codon_discarded.1 ("TTTGGGCC".data) ("TTTGGG".data) ("CC".data)
    (by decide) (by decide) (by decide) (by decide)

/-- Claim C4: `validate_sequence s` is true iff the whitespace-trimmed string
is non-empty and every character is A, T, C or G in upper or lower case;
false on the empty string, on all-whitespace strings, and on `ATGX`. -/
theorem claim_C4_validator_characterization :
    (∀ s, Day03.validate_sequence s = true ↔
      (stripChars s ≠ [] ∧ ∀ c ∈ stripChars s, c ∈ dnaLetters))
    ∧ Day03.validate_sequence [] = false
    ∧ Day03.validate_sequence ("   ".data) = false
    ∧ Day03.validate_sequence ("ATGX".data) = false := by
  refine ⟨?_, by decide, by decide, by decide⟩
  intro s
  unfold Day03.validate_sequence
  by_cases hs : s = []
  · subst hs
    simp [stripChars]
  · rw [if_neg hs]
    have hiff : (stripChars s).isEmpty = false ↔ ¬ stripChars s = [] := by
      rw [Bool.eq_false_iff]
      exact not_congr List.isEmpty_iff
    simp only [Bool.and_eq_true, List.all_eq_true, charClassATCG_iff,
      Bool.not_eq_true', hiff, ne_eq]

/-- Claim C4 witness: the characterization evaluated at `ATG`. -/
theorem claim_C4_validator_characterization_witness :
    Day03.validate_sequence ("ATG".data) = true ↔
      (stripChars ("ATG".data) ≠ [] ∧ ∀ c ∈ stripChars ("ATG".data), c ∈ dnaLetters) :=
  claim_C4_validator_characterization.1 ("ATG".data)

/-- Claim C5: on every sequence made only of A/T/C/G letters (either case),
the day02 embedded-table translator, the day03 translator's embedded-table
fallback path, and the day03 translator with the (spec-modelled) external
backend substituted all return identical output: backend availability does
not change the observable result. -/
theorem claim_C5_strategy_agreement :
    ∀ (backend : Bool) (s : List Char), (∀ c ∈ s, c ∈ dnaLetters) →
      Day02.translate_dna_to_protein s = Day03.translate_dna_to_protein s
      ∧ Day03.translateWithBackend backend s = Day03.translate_dna_to_protein s := by
  intro backend s h
  constructor
  · unfold Day02.translate_dna_to_protein Day03.translate_dna_to_protein Day03.coding
    rw [day02_decodeLoop_eq]
    by_cases hs : s = []
    · subst hs
      simp [Day03.normalize, stripChars, Day03.decodeLoop]
    · rw [if_neg hs, normalize_of_letters s h]
  · unfold Day03.translateWithBackend Day03.translate_dna_to_protein
    by_cases hs : s = []
    · simp [hs]
    · rw [if_neg hs, if_neg hs]
      cases backend
      · simp
      · simp [external_engine_eq]

/-- Claim C5 witness: the three strategies agree on `atgAAAtag`. -/
theorem claim_C5_strategy_agreement_witness :
    Day02.translate_dna_to_protein ("atgAAAtag".data) =
      Day03.translate_dna_to_protein ("atgAAAtag".data)
    ∧ Day03.translateWithBackend true ("atgAAAtag".data) =
      Day03.translate_dna_to_protein ("atgAAAtag".data) :=
  claim_C5_strategy_agreement true ("atgAAAtag".data) (by decide)

/-- Claim C6: the result of `translate_dna_to_protein` depends only on the
trimmed, uppercased normalization of the input, so any two case variants of
a string translate identically; in particular translating a string and its
all-lowercase form agree, and
`translate_dna_to_protein "atgaaaTGG" = translate_dna_to_protein "ATGAAATGG"`. -/
theorem claim_C6_case_insensitivity :
    (∀ s t : List Char, s.map pyToUpper = t.map pyToUpper →
      Day03.translate_dna_to_protein s = Day03.translate_dna_to_protein t)
    ∧ (∀ s : List Char,
      Day03.translate_dna_to_protein (s.map pyToLower) = Day03.translate_dna_to_protein s)
    ∧ Day03.translate_dna_to_protein ("atgaaaTGG".data) =
      Day03.translate_dna_to_protein ("ATGAAATGG".data) := by
  have main : ∀ s t : List Char, s.map pyToUpper = t.map pyToUpper →
      Day03.translate_dna_to_protein s = Day03.translate_dna_to_protein t := by
    intro s t h
    have hlen : s.length = t.length := by
      have h2 := congrArg List.length h
      simpa using h2
    have hnorm : Day03.normalize s = Day03.normalize t := by
      unfold Day03.normalize
      rw [h]
    unfold Day03.translate_dna_to_protein Day03.coding
    rw [hnorm]
    by_cases hs : s = []
    · subst hs
      have ht : t = [] := List.eq_nil_of_length_eq_zero (by simpa using hlen.symm)
      simp [ht]
    · have ht : t ≠ [] := by
        intro h2
        subst h2
        exact hs (List.eq_nil_of_length_eq_zero (by simpa using hlen))
      rw [if_neg hs, if_neg ht]
  refine ⟨main, fun s => main _ _ ?_, by decide⟩
  rw [List.map_map]
  exact List.map_congr_left fun a _ => pyToUpper_pyToLower a

/-- Claim C6 witness: the general case-variant statement applied to `atg`
and `ATG`. -/
theorem claim_C6_case_insensitivity_witness :
    Day03.translate_dna_to_protein ("atg".data) =
      Day03.translate_dna_to_protein ("ATG".data) :=
  claim_C6_case_insensitivity.1 ("atg".data) ("ATG".data) (by decide)

/-- Claim C7: on every well-formed input (only A/T/C/G letters, either case)
the translator returns normally: its transcription into an exception monad
always yields `ok` (including inputs whose result is empty), and no codon of
the coding region is unmapped, so the defensive skip path never signals. -/
theorem claim_C7_no_error_path :
    (∀ s, (∀ c ∈ s, c ∈ dnaLetters) →
      Day03.translateE s = Except.ok (Day03.translate_dna_to_protein s))
    ∧ (∀ s cdn, (∀ c ∈ s, c ∈ dnaLetters) → cdn ∈ toCodons (Day03.coding s) →
      Day03.geneticCodeGet cdn ≠ none)
    ∧ Day03.translateE ("TAAGGG".data) = Except.ok []
    ∧ Day03.translateE ("AT".data) = Except.ok [] := by
  refine ⟨?_, ?_, by rfl, by rfl⟩
  · intro s h
    unfold Day03.translateE Day03.translate_dna_to_protein
    by_cases hs : s = [] <;> simp [hs, decodeLoopE_ok]
  · intro s cdn h hc
    obtain ⟨x, y, z, rfl, hx, hy, hz⟩ := mem_toCodons _ _ hc
    have hsub : ∀ c ∈ Day03.coding s, c ∈ validBases := by
      intro c hcc
      have h1 : c ∈ Day03.normalize s := List.mem_of_mem_drop hcc
      rw [normalize_of_letters s h] at h1
      obtain ⟨b, hb, rfl⟩ := List.mem_map.mp h1
      exact pyToUpper_mem_validBases (h b hb)
    exact mapped_total x (hsub x hx) y (hsub y hy) z (hsub z hz)

/-- Claim C7 witness: the exception-monad translator returns `ok` on
`ATGAAATAGGGT`. -/
theorem claim_C7_no_error_path_witness :
    Day03.translateE ("ATGAAATAGGGT".data) =
      Except.ok (Day03.translate_dna_to_protein ("ATGAAATAGGGT".data)) :=
  claim_C7_no_error_path.1 ("ATGAAATAGGGT".data) (by decide)

/-- Claim C8: the output of `translate_dna_to_protein` never contains the
stop marker `*`, and every output character is one of the twenty canonical
one-letter amino-acid codes. -/
theorem claim_C8_output_alphabet :
    (∀ s : List Char, '*' ∉ Day03.translate_dna_to_protein s)
    ∧ (∀ (s : List Char) (c : Char),
      c ∈ Day03.translate_dna_to_protein s → c ∈ twentyAA) := by
  have key : ∀ (s : List Char) (c : Char), c ∈ Day03.translate_dna_to_protein s →
      ∃ k, Day03.geneticCodeGet k = some c ∧ c ≠ '*' := by
    intro s c hc
    unfold Day03.translate_dna_to_protein at hc
    by_cases hs : s = []
    · rw [if_pos hs] at hc
      simp at hc
    · rw [if_neg hs] at hc
      exact mem_decodeLoop _ c hc
  refine ⟨fun s hmem => ?_, fun s c hc => ?_⟩
  · obtain ⟨k, _, hne⟩ := key s '*' hmem
    exact hne rfl
  · obtain ⟨k, hk, hne⟩ := key s c hc
    have hmem2 := lookupTab_mem Day03.genetic_code k c hk
    rcases genetic_code_values (k, c) hmem2 with h1 | h1
    · exact absurd h1 hne
    · exact h1

/-- Claim C8 witness: `M`, an output character of translating `ATGAAA`, is a
canonical amino-acid code. -/
theorem claim_C8_output_alphabet_witness : 'M' ∈ twentyAA :=
  claim_C8_output_alphabet.2 ("ATGAAA".data) 'M' (by decide)

/-- Claim C9: the embedded genetic-code table has exactly 64 entries with
pairwise-distinct codon keys, every triplet over A/T/C/G is mapped, exactly
the three codons TAA, TAG, TGA carry the stop marker, every non-stop value
is one of the twenty canonical codes, and the day02 copy of the table is
identical. -/
theorem claim_C9_table_totality :
    Day03.genetic_code.length = 64
    ∧ (Day03.genetic_code.map Prod.fst).Nodup
    ∧ (validBases.all fun x => validBases.all fun y => validBases.all fun z =>
        (Day03.geneticCodeGet [x, y, z]).isSome) = true
    ∧ (Day03.genetic_code.all fun p =>
        (p.2 == '*') == (p.1 == ['T', 'A', 'A'] || p.1 == ['T', 'A', 'G'] ||
          p.1 == ['T', 'G', 'A'])) = true
    ∧ (Day03.genetic_code.filter fun p => p.2 == '*').length = 3
    ∧ (Day03.genetic_code.all fun p => p.2 == '*' || twentyAA.contains p.2) = true
    ∧ Day02.genetic_code = Day03.genetic_code :=
  ⟨by decide, by decide, by decide, by decide, by decide, by decide, rfl⟩

/-- Claim C10: the day02 validator accepts the empty string, and accepts
exactly the strings all of whose uppercased characters are among A, T, C, G
(no trimming, no non-emptiness check), diverging from the day03 validator,
which rejects the empty string. -/
theorem claim_C10_day02_validator :
    Day02.validate_sequence [] = true
    ∧ (∀ s, Day02.validate_sequence s = true ↔ ∀ c ∈ s, pyToUpper c ∈ validBases)
    ∧ Day03.validate_sequence [] = false := by
  refine ⟨by decide, ?_, by decide⟩
  intro s
  unfold Day02.validate_sequence
  simp [List.all_eq_true]

/-- Claim C10 witness: the day02 characterization evaluated at `atg`. -/
theorem claim_C10_day02_validator_witness :
    Day02.validate_sequence ("atg".data) = true ↔
      ∀ c ∈ ("atg".data), pyToUpper c ∈ validBases :=
  claim_C10_day02_validator.2.1 ("atg".data)
